import Mathlib

/-!
Verification development for the image-cover editing application
(src/App.tsx and the service module src/unnamed/part_000).

The development shallowly embeds the three core components:
- the Data URL Codec (`parseDataUrl`, the base64 encoder behind the
  browser FileReader primitive wrapped by `fileToDataUrl`),
- the Edit Service Client (`editImage`),
- the Application State Controller (`handleSubmit`, `handleImageChange`,
  the object-URL cleanup effect, and the derived interaction state).

JavaScript strings are Lean `String`s, byte sequences are `List Nat`
(each element a byte value), thrown JavaScript values are the inductive
`JSError` (an `Error` with a message, or a non-`Error` value), and
promise resolution is modelled by passing the settled outcome of the
awaited expression as an explicit `Except` value.
-/

/-! ## Data URL Codec -/

/-- A character matched by `.` in a JavaScript regular expression without
the `s` flag: any character except the line terminators LF, CR, U+2028
and U+2029. -/
def isDotChar (c : Char) : Bool :=
  c != '\n' && c != '\r' && c != Char.ofNat 0x2028 && c != Char.ofNat 0x2029

/-- The literal separator `;base64,` of the data-URL regular expression
`^data:(.+);base64,(.+)$` in `parseDataUrl` (src/App.tsx line 15). -/
def b64sep : List Char := [';', 'b', 'a', 's', 'e', '6', '4', ',']

/-- One candidate split of the text after `data:` at position `i`:
group 1 is the first `i` characters, which must be non-empty dot
characters, followed by the literal `;base64,`, followed by group 2,
non-empty dot characters reaching the end of the string. -/
def trySplit (cs : List Char) (i : Nat) : Option (List Char × List Char) :=
  let t := cs.take i
  let r := cs.drop i
  if !t.isEmpty && t.all isDotChar && b64sep.isPrefixOf r then
    let p := r.drop 8
    if !p.isEmpty && p.all isDotChar then some (t, p) else none
  else none

/-- Greedy matching of `(.+);base64,(.+)$`: the regex engine gives the
first capture group the longest feasible extent, so the accepted split is
the one with the largest `i`; scanning `i` downward from the length of
the string realizes exactly that backtracking order. -/
def greedySplit (cs : List Char) : Nat → Option (List Char × List Char)
  | 0 => none
  | i + 1 =>
    match trySplit cs (i + 1) with
    | some tp => some tp
    | none => greedySplit cs i

/-- The record returned by `parseDataUrl` on success
(src/App.tsx line 17: `{ mimeType: match[1], base64: match[2] }`). -/
structure ParsedDataUrl where
  mimeType : String
  base64 : String
deriving DecidableEq

/-- `parseDataUrl` (src/App.tsx lines 14-18): matches the input against
`/^data:(.+);base64,(.+)$/` and throws `Error("Invalid data URL format")`
when there is no match. -/
def parseDataUrl (dataUrl : String) : Except String ParsedDataUrl :=
  let cs := dataUrl.data
  if "data:".data.isPrefixOf cs then
    match greedySplit (cs.drop 5) (cs.drop 5).length with
    | some (t, p) => .ok ⟨⟨t⟩, ⟨p⟩⟩
    | none => .error "Invalid data URL format"
  else .error "Invalid data URL format"

/-- The standard base64 alphabet. -/
def b64Alphabet : List Char :=
  "ABCDEFGHIJKLMNOPQRSTUVWXYZabcdefghijklmnopqrstuvwxyz0123456789+/".data

/-- The base64 digit for a 6-bit value. -/
def b64Char (n : Nat) : Char := b64Alphabet.getD n 'A'

/-- Base64 encoding of a byte sequence, three bytes to four digits with
`=` padding; the arithmetic is the usual 6-bit extraction from the
24-bit group. -/
def base64EncodeCore : List Nat → List Char
  | [] => []
  | [a] => [b64Char (a / 4 % 64), b64Char (a % 4 * 16), '=', '=']
  | [a, b] =>
      [b64Char (a / 4 % 64), b64Char (a % 4 * 16 + b / 16 % 16),
       b64Char (b % 16 * 4), '=']
  | a :: b :: c :: rest =>
      b64Char (a / 4 % 64) :: b64Char (a % 4 * 16 + b / 16 % 16) ::
      b64Char (b % 16 * 4 + c / 64 % 4) :: b64Char (c % 64) ::
      base64EncodeCore rest

/-- Base64 encoding as a string. -/
def base64Encode (bs : List Nat) : String := ⟨base64EncodeCore bs⟩

/-- Modelled from the spec: `fileToDataUrl` (src/App.tsx lines 5-12)
wraps the browser primitive `FileReader.readAsDataURL`, which is not part
of the repository; per spec section 4.1 its successful result is the
string `data:<mimeType>;base64,<payload>` where the payload is the
base64 encoding of the file bytes. -/
def encodeDataUrl (mimeType : String) (bytes : List Nat) : String :=
  "data:" ++ mimeType ++ ";base64," ++ base64Encode bytes

/-- A MIME-type string as constrained by the round-trip property: it is
non-empty and consists of characters the regex `.` can match. -/
def validMime (m : String) : Prop :=
  m.data ≠ [] ∧ m.data.all isDotChar = true

instance (m : String) : Decidable (validMime m) := by
  unfold validMime; infer_instance

/-- The pattern `data:<type>;base64,<payload>` of spec sections 4.1
and 8: a `data:` prefix, then a non-empty `<type>`, the literal
`;base64,`, and a non-empty `<payload>`, both groups made of characters
the regex dot can match. -/
def matchesDataUrlPattern (s : String) : Prop :=
  ∃ t p : List Char,
    s.data = "data:".data ++ t ++ b64sep ++ p ∧
    t ≠ [] ∧ p ≠ [] ∧ t.all isDotChar = true ∧ p.all isDotChar = true

/-! ## Edit Service Client (src/unnamed/part_000) -/

/-- A JavaScript value that was thrown: either an `Error` instance
carrying a message, or any other value (which has no message). -/
inductive JSError where
  | jsError (message : String)
  | nonError
deriving DecidableEq

/-- Inline binary content of a response part: the base64 data and the
optional MIME type (`part.inlineData.mimeType` may be absent). -/
structure InlineData where
  data : String
  mimeType : Option String
deriving DecidableEq

/-- One content part of the service response: optional text and optional
inline image data. -/
structure ContentPart where
  text : Option String
  inlineData : Option InlineData
deriving DecidableEq

/-- The `content` object of a response candidate; its `parts` field may
be absent. -/
structure Content where
  parts : Option (List ContentPart)
deriving DecidableEq

/-- One candidate of the service response; its `content` may be absent. -/
structure Candidate where
  content : Option Content
deriving DecidableEq

/-- The response of `generateContent`; its `candidates` may be absent. -/
structure GenerateContentResponse where
  candidates : Option (List Candidate)
deriving DecidableEq

/-- The part list scanned by `editImage`:
`response.candidates?.[0]?.content?.parts || []`, every step of the
optional chain defaulting to the empty list. -/
def responseParts (r : GenerateContentResponse) : List ContentPart :=
  ((((r.candidates.bind List.head?).bind Candidate.content).bind Content.parts).getD [])

/-- The loop of `editImage`: the first part of the list carrying inline
data, if any (`for (const part of parts) if (part.inlineData) return`). -/
def firstInlineData (parts : List ContentPart) : Option InlineData :=
  parts.findSome? ContentPart.inlineData

/-- `part.inlineData.mimeType || 'image/png'`: the default applies when
the MIME type is absent (and, JavaScript `||` being truthiness-based,
also when it is the empty string). -/
def mimeOrPng (m : Option String) : String :=
  match m with
  | some s => if s = "" then "image/png" else s
  | none => "image/png"

/-- The message of the error thrown when no part carries image data. -/
def noImageMessage : String := "No image data found in the Gemini API response."

/-- The body of the `try` block of `editImage`, given the settled
outcome of the awaited `generateContent` call: on a successful response,
return a data URL from the first inline-data part, or throw the
no-image `Error`; a rejection of the call propagates. -/
def editImageTryBody (call : Except JSError GenerateContentResponse) :
    Except JSError String :=
  match call with
  | .error e => .error e
  | .ok resp =>
    match firstInlineData (responseParts resp) with
    | some d => .ok ("data:" ++ mimeOrPng d.mimeType ++ ";base64," ++ d.data)
    | none => .error (.jsError noImageMessage)

/-- `editImage` (src/unnamed/part_000): the `try` body wrapped by the
`catch` block, which rewraps an `Error` with the fixed prefix
`Failed to edit image: ` and replaces a non-`Error` thrown value with
the generic unknown-error message. Note that the no-image `Error` is
thrown inside the `try` block, so it too is caught and rewrapped. -/
def editImage (call : Except JSError GenerateContentResponse) :
    Except JSError String :=
  match editImageTryBody call with
  | .ok url => .ok url
  | .error (.jsError msg) => .error (.jsError ("Failed to edit image: " ++ msg))
  | .error .nonError =>
      .error (.jsError "An unknown error occurred while editing the image.")

/-! ## Application State Controller (src/App.tsx) -/

/-- An uploaded file, opaque to the controller logic. -/
structure UploadFile where
  name : String
deriving DecidableEq

/-- The mutable state of the `App` component: the six `useState` slots
(src/App.tsx lines 117-124). -/
structure AppState where
  imageFile : Option UploadFile
  imagePreviewUrl : Option String
  prompt : String
  generatedImageUrl : Option String
  isLoading : Bool
  error : Option String
deriving DecidableEq

/-- The interaction state of spec section 3, derived from the observable
state slots: Loading while a request is in flight, otherwise Failed when
an error message is displayed, Succeeded when a generated image is
displayed, Idle when neither is. -/
inductive InteractionState where
  | idle
  | loading
  | succeeded
  | failed
deriving DecidableEq

/-- Derivation of the spec enum from the component state. -/
def derivedState (s : AppState) : InteractionState :=
  if s.isLoading then .loading
  else
    match s.error with
    | some _ => .failed
    | none =>
      match s.generatedImageUrl with
      | some _ => .succeeded
      | none => .idle

/-- The validation message of `handleSubmit` (src/App.tsx line 148). -/
def validationMessage : String := "Please upload an image and provide a prompt."

/-- The message shown by `handleSubmit` when the caught value is not an
`Error` instance (src/App.tsx line 161). -/
def unknownErrorMessage : String := "An unknown error occurred."

/-- `err instanceof Error ? err.message : "An unknown error occurred."`
(src/App.tsx line 161). -/
def errorText : JSError → String
  | .jsError m => m
  | .nonError => unknownErrorMessage

/-- The state set synchronously at the start of a valid submission:
`setIsLoading(true); setError(null); setGeneratedImageUrl(null)`
(src/App.tsx lines 151-153). -/
def loadingOf (s : AppState) : AppState :=
  { s with isLoading := true, error := none, generatedImageUrl := none }

/-- `handleSubmit` (src/App.tsx lines 146-167) as a trace of the states
the controller passes through, given the settled outcome of the awaited
`fileToDataUrl` / `parseDataUrl` / `editImage` pipeline. The guard
checks only that an image and a non-empty prompt are present
(`if (!imageFile || !prompt)`); there is no check of `isLoading`. On the
validation path the trace is the single state with the validation
message set; otherwise the loading state is entered, and the `finally`
clears `isLoading` after the result or the error message is stored. -/
def submitTrace (s : AppState) (outcome : Except JSError String) : List AppState :=
  if s.imageFile.isNone || s.prompt == "" then
    [{ s with error := some validationMessage }]
  else
    match outcome with
    | .ok url =>
        [loadingOf s, { loadingOf s with generatedImageUrl := some url, isLoading := false }]
    | .error e =>
        [loadingOf s, { loadingOf s with error := some (errorText e), isLoading := false }]

/-- The `disabled` predicate of the Generate button
(src/App.tsx line 194): `isLoading || !imageFile || !prompt`. -/
def submitDisabled (s : AppState) : Bool :=
  s.isLoading || s.imageFile.isNone || s.prompt == ""

/-! ## Component lifecycle: object-URL ownership

`handleImageChange` (src/App.tsx lines 135-144) revokes the current
object URL and installs a fresh one, and the `useEffect` with dependency
`[imagePreviewUrl]` (lines 126-133) registers a cleanup that revokes the
URL it captured; React runs that cleanup when the dependency changes on
a re-render and at unmount. The model records every `revokeObjectURL`
call in a log and makes `URL.createObjectURL` fresh via a counter. -/

/-- The `App` component together with its registered effect cleanup
(the preview URL captured by the current cleanup closure), the log of
revoked object URLs, and the freshness counter for created URLs. -/
structure Component where
  app : AppState
  effectUrl : Option String
  released : List String
  nextId : Nat
deriving DecidableEq

/-- A fresh object URL. -/
def freshUrl (n : Nat) : String := "blob:" ++ toString n

/-- The revocations performed by `if (u) URL.revokeObjectURL(u)`. -/
def revokeIfSome (u : Option String) : List String :=
  match u with
  | some x => [x]
  | none => []

/-- A change event on the file input: `event.target.files?.[0]` is
either a file or nothing (empty selection or cancelled picker).
`handleImageChange` does nothing without a file; with a file it revokes
the current preview URL, stores the file and a fresh preview URL, and
clears the result and the error; the subsequent re-render runs the old
effect cleanup (revoking the captured previous URL again) and registers
a cleanup for the new URL. -/
def handleImageChange (c : Component) (file : Option UploadFile) : Component :=
  match file with
  | none => c
  | some f =>
    let url := freshUrl c.nextId
    let app2 := { c.app with
                  imageFile := some f, imagePreviewUrl := some url
                  generatedImageUrl := none, error := none }
    { app := app2
      effectUrl := some url
      released := c.released ++ revokeIfSome c.app.imagePreviewUrl ++ revokeIfSome c.effectUrl
      nextId := c.nextId + 1 }

/-- Unmounting the component runs the registered effect cleanup. -/
def teardown (c : Component) : Component :=
  { c with released := c.released ++ revokeIfSome c.effectUrl, effectUrl := none }

/-- The component as mounted: no file, no preview, no result, no error,
not loading; the initial effect run registers a cleanup capturing the
`null` preview. The initial prompt text is a fixed French default whose
content no property depends on, so it is a parameter here. -/
def initComponent (initialPrompt : String) : Component :=
  { app := { imageFile := none, imagePreviewUrl := none, prompt := initialPrompt
             generatedImageUrl := none, isLoading := false, error := none }
    effectUrl := none, released := [], nextId := 0 }

/-! ## Concrete states and responses used by the properties -/

def wrappedNoImageMessage : String := "Failed to edit image: " ++ noImageMessage

def loadingState0 : AppState :=
  { imageFile := some ⟨"a.png"⟩, imagePreviewUrl := some "blob:0", prompt := "p"
    generatedImageUrl := none, isLoading := true, error := none }

def validState0 : AppState :=
  { imageFile := some ⟨"a.png"⟩, imagePreviewUrl := some "blob:0", prompt := "p"
    generatedImageUrl := none, isLoading := false, error := none }

def idleNoImage : AppState :=
  { imageFile := none, imagePreviewUrl := none, prompt := "make it pop"
    generatedImageUrl := none, isLoading := false, error := none }

def submitResolves (s : AppState) (outcome : Except JSError String) : Prop :=
  ∃ fin, submitTrace s outcome = [loadingOf s, fin] ∧
    derivedState (loadingOf s) = .loading ∧
    fin.isLoading = false ∧
    ((∃ url, outcome = .ok url ∧ fin.generatedImageUrl = some url ∧ fin.error = none ∧
        derivedState fin = .succeeded) ∨
     (∃ e, outcome = .error e ∧ fin.error = some (errorText e) ∧ fin.generatedImageUrl = none ∧
        derivedState fin = .failed)) ∧
    ¬ (derivedState fin = .succeeded ∧ derivedState fin = .failed)

def failedAfter (s : AppState) (msg : String) : AppState :=
  { loadingOf s with error := some msg, isLoading := false }

def textPart0 : ContentPart := { text := some "Here is your image", inlineData := none }

def imagePart0 : ContentPart :=
  { text := none, inlineData := some { data := "QUJD", mimeType := some "image/jpeg" } }

def mockResponse0 : GenerateContentResponse :=
  { candidates := some [{ content := some { parts := some [textPart0, imagePart0] } }] }

def refusalPart0 : ContentPart := { text := some "cannot comply", inlineData := none }

def textOnlyResponse : GenerateContentResponse :=
  { candidates := some [{ content := some { parts := some [refusalPart0] } }] }

/-! ## Codec lemmas -/

theorem isPrefixOf_append (l t : List Char) : l.isPrefixOf (l ++ t) = true := by
  induction l with
  | nil => simp [List.isPrefixOf]
  | cons a l ih => simp [List.isPrefixOf, ih]

theorem isPrefixOf_exists {l₁ l₂ : List Char} (h : l₁.isPrefixOf l₂ = true) :
    ∃ u, l₂ = l₁ ++ u := by
  induction l₁ generalizing l₂ with
  | nil => exact ⟨l₂, rfl⟩
  | cons a l ih =>
    cases l₂ with
    | nil => simp [List.isPrefixOf] at h
    | cons b t =>
      rw [List.isPrefixOf] at h
      rw [Bool.and_eq_true, beq_iff_eq] at h
      obtain ⟨u, hu⟩ := ih h.2
      exact ⟨u, by rw [h.1, hu]; rfl⟩

theorem isPrefixOf_head_mem {c : Char} {l₁ l₂ : List Char}
    (h : (c :: l₁).isPrefixOf l₂ = true) : c ∈ l₂ := by
  obtain ⟨u, hu⟩ := isPrefixOf_exists h
  rw [hu]; exact List.mem_append_left _ (List.mem_cons_self _ _)

theorem b64Char_safe (n : Nat) : isDotChar (b64Char n) = true ∧ b64Char n ≠ ';' := by
  by_cases h : n < 64
  · have hall : ∀ i : Fin 64, isDotChar (b64Char i.val) = true ∧ b64Char i.val ≠ ';' := by decide
    exact hall ⟨n, h⟩
  · have hlen : b64Alphabet.length ≤ n := by
      have : b64Alphabet.length = 64 := by decide
      omega
    unfold b64Char
    rw [List.getD_eq_default _ _ hlen]
    exact ⟨by decide, by decide⟩

theorem base64_safe (bs : List Nat) :
    ∀ c ∈ base64EncodeCore bs, isDotChar c = true ∧ c ≠ ';' := by
  induction bs using base64EncodeCore.induct with
  | case1 => intro c hc; simp [base64EncodeCore] at hc
  | case2 a =>
    intro c hc
    simp [base64EncodeCore] at hc
    rcases hc with h | h | h
    · rw [h]; exact b64Char_safe _
    · rw [h]; exact b64Char_safe _
    · rw [h]; exact ⟨by decide, by decide⟩
  | case3 a b =>
    intro c hc
    simp [base64EncodeCore] at hc
    rcases hc with h | h | h | h
    · rw [h]; exact b64Char_safe _
    · rw [h]; exact b64Char_safe _
    · rw [h]; exact b64Char_safe _
    · rw [h]; exact ⟨by decide, by decide⟩
  | case4 a b c' rest ih =>
    intro c hc
    simp [base64EncodeCore] at hc
    rcases hc with h | h | h | h | h
    · rw [h]; exact b64Char_safe _
    · rw [h]; exact b64Char_safe _
    · rw [h]; exact b64Char_safe _
    · rw [h]; exact b64Char_safe _
    · exact ih c h

theorem base64_ne_nil {bs : List Nat} (h : bs ≠ []) : base64EncodeCore bs ≠ [] := by
  match bs with
  | [] => exact absurd rfl h
  | [a] => simp [base64EncodeCore]
  | [a, b] => simp [base64EncodeCore]
  | a :: b :: c :: rest => simp [base64EncodeCore]

theorem trySplit_none_after (mL P : List Char) (hP : ';' ∉ P) (j : Nat)
    (hj : mL.length < j) : trySplit (mL ++ (b64sep ++ P)) j = none := by
  have hfalse : b64sep.isPrefixOf ((mL ++ (b64sep ++ P)).drop j) = false := by
    by_contra hc
    rw [Bool.not_eq_false] at hc
    have hmem : ';' ∈ (mL ++ (b64sep ++ P)).drop j := isPrefixOf_head_mem hc
    obtain ⟨k, hk⟩ : ∃ k, j = mL.length + k + 1 := by
      refine ⟨j - mL.length - 1, ?_⟩; omega
    rw [hk] at hmem
    have h1 : (mL ++ (b64sep ++ P)).drop (mL.length + k + 1)
        = (b64sep ++ P).drop (k + 1) := by
      have := List.drop_drop (k + 1) mL.length (mL ++ (b64sep ++ P))
      rw [List.drop_left] at this
      rw [Nat.add_assoc]
      exact this.symm
    rw [h1] at hmem
    have h2 : (b64sep ++ P).drop (k + 1)
        = (['b', 'a', 's', 'e', '6', '4', ','] ++ P).drop k := rfl
    rw [h2] at hmem
    have hsub := List.drop_subset k (['b', 'a', 's', 'e', '6', '4', ','] ++ P)
    have hmem2 := hsub hmem
    rw [List.mem_append] at hmem2
    rcases hmem2 with h | h
    · simp at h
    · exact hP h
  unfold trySplit
  simp only [hfalse, Bool.and_false, Bool.false_eq_true, if_false]

theorem trySplit_at (mL P : List Char) (hm1 : mL ≠ []) (hm2 : mL.all isDotChar = true)
    (hp1 : P ≠ []) (hp2 : P.all isDotChar = true) :
    trySplit (mL ++ (b64sep ++ P)) mL.length = some (mL, P) := by
  unfold trySplit
  rw [List.take_left, List.drop_left]
  have he1 : mL.isEmpty = false := by
    cases mL with
    | nil => exact absurd rfl hm1
    | cons a t => rfl
  have hd8 : (b64sep ++ P).drop 8 = P := List.drop_left b64sep P
  have he2 : P.isEmpty = false := by
    cases P with
    | nil => exact absurd rfl hp1
    | cons a t => rfl
  simp only [he1, hm2, isPrefixOf_append, Bool.not_false, Bool.and_true, Bool.true_and,
    if_true, hd8, he2, hp2]

theorem greedySplit_of_found (cs : List Char) (i₀ : Nat) (tp : List Char × List Char)
    (h1 : 1 ≤ i₀) (hsome : trySplit cs i₀ = some tp)
    (hnone : ∀ j, i₀ < j → trySplit cs j = none) :
    ∀ n, i₀ ≤ n → greedySplit cs n = some tp := by
  intro n
  induction n with
  | zero => intro h; omega
  | succ k ih =>
    intro hle
    by_cases he : i₀ = k + 1
    · subst he
      unfold greedySplit
      rw [hsome]
    · have hlt : i₀ < k + 1 := by omega
      unfold greedySplit
      rw [hnone (k + 1) hlt]
      exact ih (by omega)

theorem greedySplit_none_all (cs : List Char) :
    ∀ n, greedySplit cs n = none → ∀ j, 1 ≤ j → j ≤ n → trySplit cs j = none := by
  intro n
  induction n with
  | zero => intro _ j h1 h2; omega
  | succ k ih =>
    intro hg j h1 h2
    unfold greedySplit at hg
    rcases hcase : trySplit cs (k + 1) with _ | tp
    · rw [hcase] at hg
      by_cases hj : j = k + 1
      · rw [hj]; exact hcase
      · exact ih hg j h1 (by omega)
    · rw [hcase] at hg
      exact absurd hg (by simp)

theorem greedySplit_some_found (cs : List Char) :
    ∀ n tp, greedySplit cs n = some tp → ∃ i, 1 ≤ i ∧ i ≤ n ∧ trySplit cs i = some tp := by
  intro n
  induction n with
  | zero => intro tp h; exact absurd h (by simp [greedySplit])
  | succ k ih =>
    intro tp hg
    unfold greedySplit at hg
    rcases hcase : trySplit cs (k + 1) with _ | tp'
    · rw [hcase] at hg
      obtain ⟨i, hi1, hi2, hi3⟩ := ih tp hg
      exact ⟨i, hi1, by omega, hi3⟩
    · rw [hcase] at hg
      have : tp' = tp := by injection hg
      exact ⟨k + 1, by omega, by omega, by rw [hcase, this]⟩

theorem trySplit_some_decomp (cs : List Char) (i : Nat) (t p : List Char)
    (h : trySplit cs i = some (t, p)) :
    cs = t ++ (b64sep ++ p) ∧ t ≠ [] ∧ p ≠ [] ∧
      t.all isDotChar = true ∧ p.all isDotChar = true := by
  simp only [trySplit] at h
  split at h
  case isFalse => exact absurd h (by simp)
  case isTrue hcond =>
    split at h
    case isFalse => exact absurd h (by simp)
    case isTrue hcond2 =>
      rw [Option.some_inj] at h
      have ht : cs.take i = t := congrArg Prod.fst h
      have hp : (cs.drop i).drop 8 = p := congrArg Prod.snd h
      rw [Bool.and_eq_true, Bool.and_eq_true] at hcond
      rw [Bool.and_eq_true] at hcond2
      obtain ⟨⟨hne, hall⟩, hpref⟩ := hcond
      obtain ⟨hne2, hall2⟩ := hcond2
      obtain ⟨u, hu⟩ := isPrefixOf_exists hpref
      have hu8 : (cs.drop i).drop 8 = u := by rw [hu]; exact List.drop_left b64sep u
      have hup : u = p := by rw [← hu8, hp]
      refine ⟨?_, ?_, ?_, ?_, ?_⟩
      · rw [← ht, ← hup, ← hu]
        exact (List.take_append_drop i cs).symm
      · rw [← ht]
        intro hnil
        rw [hnil] at hne
        simp at hne
      · rw [← hp]
        intro hnil
        rw [hnil] at hne2
        simp at hne2
      · rw [← ht]; exact hall
      · rw [← hp]; exact hall2

/-- C4: codec round-trip. For every non-empty byte sequence `bs` and valid
MIME-type string `m`, decoding the encoded data URL succeeds and returns
exactly the MIME type `m` and the base64 encoding of `bs`. -/
theorem parse_encode (m : String) (bs : List Nat) (hb : bs ≠ []) (hm : validMime m) :
    parseDataUrl (encodeDataUrl m bs) = .ok ⟨m, base64Encode bs⟩ := by
  have h0 : (encodeDataUrl m bs).data
      = (("data:".data ++ m.data) ++ b64sep) ++ base64EncodeCore bs := rfl
  have hdata : (encodeDataUrl m bs).data
      = "data:".data ++ (m.data ++ (b64sep ++ base64EncodeCore bs)) := by
    rw [h0, List.append_assoc, List.append_assoc]
  have hP := base64_safe bs
  have hPn : base64EncodeCore bs ≠ [] := base64_ne_nil hb
  have hPd : (base64EncodeCore bs).all isDotChar = true := by
    rw [List.all_eq_true]; intro c hc; exact (hP c hc).1
  have hPs : ';' ∉ base64EncodeCore bs := fun hmem => (hP _ hmem).2 rfl
  obtain ⟨hm1, hm2⟩ := hm
  have hrest : (encodeDataUrl m bs).data.drop 5
      = m.data ++ (b64sep ++ base64EncodeCore bs) := by
    rw [hdata, show (5 : Nat) = "data:".data.length from rfl]
    exact List.drop_left _ _
  have hgreedy : greedySplit ((encodeDataUrl m bs).data.drop 5)
      ((encodeDataUrl m bs).data.drop 5).length
      = some (m.data, base64EncodeCore bs) := by
    rw [hrest]
    apply greedySplit_of_found _ m.data.length
    · have := List.length_pos.mpr hm1; omega
    · exact trySplit_at _ _ hm1 hm2 hPn hPd
    · intro j hj; exact trySplit_none_after _ _ hPs j hj
    · rw [List.length_append]; exact Nat.le_add_right _ _
  have hpref : "data:".data.isPrefixOf (encodeDataUrl m bs).data = true := by
    rw [hdata]; exact isPrefixOf_append _ _
  simp only [parseDataUrl, hpref, if_true, hgreedy]
  rfl

theorem parse_ok_of_matches (s : String) (h : matchesDataUrlPattern s) :
    ∃ r, parseDataUrl s = .ok r := by
  obtain ⟨t, p, hdata, ht, hp, hta, hpa⟩ := h
  have hdata' : s.data = "data:".data ++ (t ++ (b64sep ++ p)) := by
    rw [hdata, List.append_assoc, List.append_assoc]
  have hrest : s.data.drop 5 = t ++ (b64sep ++ p) := by
    rw [hdata', show (5 : Nat) = "data:".data.length from rfl]
    exact List.drop_left _ _
  have hpref : "data:".data.isPrefixOf s.data = true := by
    rw [hdata']; exact isPrefixOf_append _ _
  have hts : trySplit (s.data.drop 5) t.length = some (t, p) := by
    rw [hrest]; exact trySplit_at _ _ ht hta hp hpa
  rcases hg : greedySplit (s.data.drop 5) (s.data.drop 5).length with _ | ⟨t', p'⟩
  · exfalso
    have hle : t.length ≤ (s.data.drop 5).length := by
      rw [hrest, List.length_append]; exact Nat.le_add_right _ _
    have h1 : 1 ≤ t.length := by have := List.length_pos.mpr ht; omega
    have hall := greedySplit_none_all _ _ hg t.length h1 hle
    rw [hall] at hts
    exact absurd hts (by simp)
  · refine ⟨⟨⟨t'⟩, ⟨p'⟩⟩, ?_⟩
    simp only [parseDataUrl, hpref, if_true, hg]

theorem matches_of_parse_ok (s : String) (r : ParsedDataUrl)
    (h : parseDataUrl s = .ok r) : matchesDataUrlPattern s := by
  by_cases hpref : "data:".data.isPrefixOf s.data = true
  · rcases hg : greedySplit (s.data.drop 5) (s.data.drop 5).length with _ | ⟨t, p⟩
    · exfalso
      simp only [parseDataUrl, hpref, if_true, hg] at h
      exact absurd h (by simp)
    · obtain ⟨i, _, _, hts⟩ := greedySplit_some_found _ _ _ hg
      obtain ⟨hdec, ht, hp, hta, hpa⟩ := trySplit_some_decomp _ _ _ _ hts
      refine ⟨t, p, ?_, ht, hp, hta, hpa⟩
      obtain ⟨u, hu⟩ := isPrefixOf_exists hpref
      have hu5 : s.data.drop 5 = u := by
        rw [hu, show (5 : Nat) = "data:".data.length from rfl]
        exact List.drop_left _ _
      rw [hu, ← hu5, hdec, List.append_assoc, List.append_assoc]
  · exfalso
    rw [Bool.not_eq_true] at hpref
    simp only [parseDataUrl, hpref, Bool.false_eq_true, if_false] at h
    exact absurd h (by simp)

theorem parse_error_msg (s : String) (e : String)
    (h : parseDataUrl s = .error e) : e = "Invalid data URL format" := by
  simp only [parseDataUrl] at h
  split at h
  · split at h
    · exact absurd h (by simp)
    · injection h with h; exact h.symm
  · injection h with h; exact h.symm

/-- C5: `parseDataUrl` fails, with the exact message
`Invalid data URL format`, precisely on the strings that do not match the
pattern `data:<type>;base64,<payload>`, and succeeds on every string
matching it; in particular the two strings `not-a-data-url` and
`data:text/plain,hello` fail. -/
theorem parse_fails_iff_not_matching :
    (∀ s, parseDataUrl s = .error "Invalid data URL format" ↔ ¬ matchesDataUrlPattern s) ∧
    (∀ s, matchesDataUrlPattern s → ∃ r, parseDataUrl s = .ok r) ∧
    parseDataUrl "not-a-data-url" = .error "Invalid data URL format" ∧
    parseDataUrl "data:text/plain,hello" = .error "Invalid data URL format" := by
  refine ⟨fun s => ⟨fun herr hmatch => ?_, fun hnm => ?_⟩, parse_ok_of_matches, by rfl, by rfl⟩
  · obtain ⟨r, hr⟩ := parse_ok_of_matches s hmatch
    rw [herr] at hr
    exact absurd hr (by simp)
  · rcases hres : parseDataUrl s with e | r
    · rw [parse_error_msg s e hres]
    · exact absurd (matches_of_parse_ok s r hres) hnm

/-- Witness for C5 at two concrete strings. -/
theorem parse_fails_iff_not_matching_witness :
    ¬ matchesDataUrlPattern "not-a-data-url" ∧
    (∃ r, parseDataUrl "data:image/png;base64,AQID" = .ok r) :=
  ⟨(parse_fails_iff_not_matching.1 "not-a-data-url").mp (by rfl),
   parse_fails_iff_not_matching.2.1 "data:image/png;base64,AQID"
     ⟨"image/png".data, "AQID".data, by decide, by decide, by decide, by decide, by decide⟩⟩

/-- Witness for C4 at the bytes `[1, 2, 3]` and MIME type `image/png`. -/
theorem parse_encode_witness :
    ([1, 2, 3] : List Nat) ≠ [] ∧ validMime "image/png" ∧
    parseDataUrl (encodeDataUrl "image/png" [1, 2, 3]) = .ok ⟨"image/png", base64Encode [1, 2, 3]⟩ :=
  ⟨by decide, by decide, parse_encode "image/png" [1, 2, 3] (by decide) (by decide)⟩

/-! ## Controller and service properties -/

theorem findSome?_append_none {α β : Type} (f : α → Option β) (pre l : List α)
    (hpre : ∀ q ∈ pre, f q = none) : (pre ++ l).findSome? f = l.findSome? f := by
  induction pre with
  | nil => rfl
  | cons q rest ih =>
    rw [List.cons_append, List.findSome?_cons, hpre q (List.mem_cons_self _ _)]
    exact ih (fun x hx => hpre x (List.mem_cons_of_mem _ hx))

/-- C2: every submission that enters Loading leaves it. For every state
passing the guard and every settled outcome of the pipeline, the trace is
the Loading state followed by one final state that is no longer loading
and reads exactly one of Succeeded (generated image set, no error) or
Failed (error message set, no generated image) - never both. -/
theorem submit_enters_and_leaves_loading (s : AppState) (outcome : Except JSError String)
    (h1 : s.imageFile.isNone = false) (h2 : (s.prompt == "") = false) :
    submitResolves s outcome := by
  cases outcome with
  | ok url =>
    refine ⟨{ loadingOf s with generatedImageUrl := some url, isLoading := false },
      ?_, rfl, rfl, Or.inl ⟨url, rfl, rfl, rfl, rfl⟩, ?_⟩
    · simp [submitTrace, h1, h2]
    · rintro ⟨ha, hb⟩; rw [ha] at hb; exact absurd hb (by decide)
  | error e =>
    refine ⟨{ loadingOf s with error := some (errorText e), isLoading := false },
      ?_, rfl, rfl, Or.inr ⟨e, rfl, rfl, rfl, rfl⟩, ?_⟩
    · simp [submitTrace, h1, h2]
    · rintro ⟨ha, hb⟩; rw [ha] at hb; exact absurd hb (by decide)

/-- Witness for C2 at a concrete valid state and a successful outcome. -/
theorem submit_enters_and_leaves_loading_witness :
    validState0.imageFile.isNone = false ∧ (validState0.prompt == "") = false ∧
    submitResolves validState0 (.ok "u") :=
  ⟨rfl, rfl, submit_enters_and_leaves_loading validState0 (.ok "u") rfl rfl⟩

/-- Counterexample to C1: at a concrete state that is Loading and has an
image and a prompt, invoking `handleSubmit` is not a no-op - the run
proceeds and ends in a state different from the starting one, because the
guard of `handleSubmit` never checks `isLoading`. -/
theorem submit_not_rejected_while_loading :
    loadingState0.isLoading = true ∧ derivedState loadingState0 = .loading ∧
    submitTrace loadingState0 (.ok "u") =
      [loadingState0, { loadingState0 with generatedImageUrl := some "u", isLoading := false }] ∧
    submitTrace loadingState0 (.ok "u") ≠ [loadingState0] ∧
    { loadingState0 with generatedImageUrl := some "u", isLoading := false } ≠ loadingState0 := by
  refine ⟨rfl, rfl, by decide, by decide, by decide⟩

/-- C1 (amended): re-submission while Loading is prevented only by the
presentation layer - the Generate button is disabled whenever the
controller is Loading. -/
theorem submit_blocked_only_by_disabled_button (s : AppState) (h : s.isLoading = true) :
    submitDisabled s = true := by
  simp [submitDisabled, h]

/-- Witness for the amended C1 at the concrete loading state. -/
theorem submit_blocked_only_by_disabled_button_witness :
    loadingState0.isLoading = true ∧ submitDisabled loadingState0 = true :=
  ⟨rfl, submit_blocked_only_by_disabled_button loadingState0 rfl⟩

/-- Counterexample to C9: from a concrete Idle state with no image, the
validation path stores its message in the shared error slot, so the
derived interaction state reads Failed instead of staying Idle. -/
theorem validation_message_reads_failed :
    derivedState idleNoImage = .idle ∧
    submitTrace idleNoImage (.ok "u") = [{ idleNoImage with error := some validationMessage }] ∧
    derivedState { idleNoImage with error := some validationMessage } = .failed := by
  refine ⟨rfl, by decide, rfl⟩

/-- C9 (amended): with no image or an empty prompt, `handleSubmit` only
sets the validation message into the error slot; every other state slot
(image, preview, prompt, generated result, loading flag) is unchanged and
Loading is never entered. -/
theorem submit_validation_frame (s : AppState) (outcome : Except JSError String)
    (h : s.imageFile.isNone = true ∨ s.prompt = "") :
    submitTrace s outcome = [{ s with error := some validationMessage }] := by
  have hc : (s.imageFile.isNone || s.prompt == "") = true := by
    rcases h with h | h
    · rw [h]; rfl
    · rw [h]; simp
  simp [submitTrace, hc]

/-- Witness for the amended C9 at the concrete image-less state. -/
theorem submit_validation_frame_witness :
    (idleNoImage.imageFile.isNone = true ∨ idleNoImage.prompt = "") ∧
    submitTrace idleNoImage (.error .nonError)
      = [{ idleNoImage with error := some validationMessage }] :=
  ⟨Or.inl rfl, submit_validation_frame idleNoImage (.error .nonError) (Or.inl rfl)⟩

/-- C10: a change event carrying no file is a total no-op on the
component - state, registered cleanup, release log and counter are all
unchanged, so in particular no preview handle is released. -/
theorem image_change_without_file_noop (c : Component) : handleImageChange c none = c := rfl

/-- C3 (behaviour at the failing input): selecting a first and then a
second file revokes the first object URL twice - once inside
`handleImageChange` and once by the effect cleanup that runs when
`imagePreviewUrl` changes - while the final preview corresponds to the
second file; the claim (and spec section 5) require exactly one
release. -/
theorem first_preview_url_revoked_twice :
    (handleImageChange (initComponent "p") (some ⟨"a.png"⟩)).released = [] ∧
    (handleImageChange (initComponent "p") (some ⟨"a.png"⟩)).app.imagePreviewUrl
      = some "blob:0" ∧
    (handleImageChange (handleImageChange (initComponent "p") (some ⟨"a.png"⟩))
        (some ⟨"b.png"⟩)).released = ["blob:0", "blob:0"] ∧
    ((handleImageChange (handleImageChange (initComponent "p") (some ⟨"a.png"⟩))
        (some ⟨"b.png"⟩)).released).count "blob:0" = 2 ∧
    (handleImageChange (handleImageChange (initComponent "p") (some ⟨"a.png"⟩))
        (some ⟨"b.png"⟩)).app.imageFile = some ⟨"b.png"⟩ ∧
    (handleImageChange (handleImageChange (initComponent "p") (some ⟨"a.png"⟩))
        (some ⟨"b.png"⟩)).app.imagePreviewUrl = some "blob:1" := by
  refine ⟨by decide, by decide, by decide, by decide, by decide, by decide⟩

/-- C6: for every response whose part list contains an inline-data part,
`editImage` returns a data URL built from the first such part in list
order, using that part's MIME type and substituting `image/png` when the
MIME type is absent. -/
theorem editImage_returns_first_inline_part
    (resp : GenerateContentResponse) (pre post : List ContentPart)
    (p : ContentPart) (d : InlineData)
    (hparts : responseParts resp = pre ++ p :: post)
    (hpre : ∀ q ∈ pre, q.inlineData = none)
    (hp : p.inlineData = some d) :
    editImage (.ok resp) = .ok ("data:" ++ mimeOrPng d.mimeType ++ ";base64," ++ d.data) ∧
    (d.mimeType = none →
      editImage (.ok resp) = .ok ("data:" ++ "image/png" ++ ";base64," ++ d.data)) := by
  have hm : firstInlineData (responseParts resp) = some d := by
    rw [hparts]
    unfold firstInlineData
    rw [findSome?_append_none _ _ _ hpre, List.findSome?_cons, hp]
  constructor
  · simp [editImage, editImageTryBody, hm]
  · intro hmt
    simp [editImage, editImageTryBody, hm, mimeOrPng, hmt]

/-- Witness for C6: a response with a text part followed by an image
part; the image part wins and its MIME type is used. -/
theorem editImage_returns_first_inline_part_witness :
    responseParts mockResponse0 = [textPart0] ++ imagePart0 :: [] ∧
    editImage (.ok mockResponse0) = .ok "data:image/jpeg;base64,QUJD" := by
  refine ⟨rfl, ?_⟩
  have h := (editImage_returns_first_inline_part mockResponse0 [textPart0] [] imagePart0
    ⟨"QUJD", some "image/jpeg"⟩ rfl
    (by intro q hq; simp at hq; subst hq; rfl) rfl).1
  exact h

/-- Counterexample to C7: on a text-only response the failure of
`editImage` is not the bare no-image error - it carries the fixed
`Failed to edit image: ` prefix of the service-error category, because
the no-image `Error` is thrown inside the `try` block and rewrapped by
its own `catch`. -/
theorem no_image_failure_carries_service_prefix :
    editImage (.ok textOnlyResponse) = .error (.jsError wrappedNoImageMessage) ∧
    editImage (.ok textOnlyResponse) ≠ .error (.jsError noImageMessage) ∧
    wrappedNoImageMessage = "Failed to edit image: " ++ noImageMessage ∧
    wrappedNoImageMessage ≠ noImageMessage := by
  refine ⟨rfl, ?_, rfl, by decide⟩
  intro h
  have h2 : JSError.jsError wrappedNoImageMessage = .jsError noImageMessage := by
    injection h
  have h3 : wrappedNoImageMessage = noImageMessage := by injection h2
  exact absurd h3 (by decide)

/-- C7 (amended): for every response in which no part carries inline
image data, `editImage` fails with the no-image message wrapped in the
`Failed to edit image: ` prefix, and that failure is propagated to the
Failed state of the submission. -/
theorem editImage_no_image_wrapped (resp : GenerateContentResponse) (s : AppState)
    (hno : ∀ q ∈ responseParts resp, q.inlineData = none)
    (h1 : s.imageFile.isNone = false) (h2 : (s.prompt == "") = false) :
    editImage (.ok resp) = .error (.jsError wrappedNoImageMessage) ∧
    submitTrace s (editImage (.ok resp))
      = [loadingOf s, failedAfter s wrappedNoImageMessage] ∧
    derivedState (failedAfter s wrappedNoImageMessage) = .failed := by
  have hnone : firstInlineData (responseParts resp) = none := by
    unfold firstInlineData
    rw [List.findSome?_eq_none_iff]
    exact hno
  have he : editImage (.ok resp) = .error (.jsError wrappedNoImageMessage) := by
    simp [editImage, editImageTryBody, hnone, wrappedNoImageMessage]
  refine ⟨he, ?_, rfl⟩
  rw [he]
  simp [submitTrace, h1, h2, errorText, failedAfter]

/-- Witness for the amended C7 at a concrete text-only response. -/
theorem editImage_no_image_wrapped_witness :
    (∀ q ∈ responseParts textOnlyResponse, q.inlineData = none) ∧
    editImage (.ok textOnlyResponse) = .error (.jsError wrappedNoImageMessage) ∧
    submitTrace validState0 (editImage (.ok textOnlyResponse))
      = [loadingOf validState0, failedAfter validState0 wrappedNoImageMessage] := by
  have hno : ∀ q ∈ responseParts textOnlyResponse, q.inlineData = none := by
    intro q hq
    simp [responseParts, textOnlyResponse] at hq
    subst hq
    rfl
  have h := editImage_no_image_wrapped textOnlyResponse validState0 hno rfl rfl
  exact ⟨hno, h.1, h.2.1⟩

/-- C8: a transport failure thrown as an `Error` with message `m` makes
`editImage` fail with exactly `Failed to edit image: ` followed by `m`
verbatim, the resulting Failed state of the submission carries that text,
and a thrown value with no message is surfaced as the generic
unknown-error fallback string. -/
theorem service_error_message_preserved (m : String) (s : AppState)
    (h1 : s.imageFile.isNone = false) (h2 : (s.prompt == "") = false) :
    editImage (.error (.jsError m)) = .error (.jsError ("Failed to edit image: " ++ m)) ∧
    submitTrace s (editImage (.error (.jsError m)))
      = [loadingOf s, failedAfter s ("Failed to edit image: " ++ m)] ∧
    derivedState (failedAfter s ("Failed to edit image: " ++ m)) = .failed ∧
    editImage (.error .nonError)
      = .error (.jsError "An unknown error occurred while editing the image.") := by
  have he : editImage (.error (.jsError m))
      = .error (.jsError ("Failed to edit image: " ++ m)) := rfl
  refine ⟨rfl, ?_, rfl, rfl⟩
  rw [he]
  simp [submitTrace, h1, h2, errorText, failedAfter]

/-- Witness for C8 with the underlying message `quota exceeded`. -/
theorem service_error_message_preserved_witness :
    validState0.imageFile.isNone = false ∧ (validState0.prompt == "") = false ∧
    editImage (.error (.jsError "quota exceeded"))
      = .error (.jsError ("Failed to edit image: " ++ "quota exceeded")) ∧
    submitTrace validState0 (editImage (.error (.jsError "quota exceeded")))
      = [loadingOf validState0, failedAfter validState0 ("Failed to edit image: " ++ "quota exceeded")] := by
  have h := service_error_message_preserved "quota exceeded" validState0 rfl rfl
  exact ⟨rfl, rfl, h.1, h.2.1⟩
